import Mathlib

/-!
Shallow embedding of the codecrafters-redis server (Rust) relevant to the
frozen claims: the RESP tokenizer and command parser (`src/parse.rs`,
`src/command.rs`), the in-memory store (`src/db.rs`), the master-side
dispatch and replica registry (`src/master.rs`, `src/main.rs`), and the
replica apply loop (`src/replica.rs`).

Conventions of the embedding:
- Rust byte strings are modelled as Lean `String`s; keys/values are treated
  as ASCII byte strings (the spec calls them "opaque byte strings"), so
  `String.length` models Rust's byte `len()` and ASCII lowercasing models
  `str::to_lowercase`.
- `Instant` / wall time is a `Nat` of milliseconds; `Duration::from_millis`
  is the identity on that `Nat`.
- A Rust `panic!` (e.g. `Option::unwrap` on `None`) is modelled by an
  `Option` result being `none`.
-/

namespace Redis

/-- ASCII model of Rust char lowercasing: maps A-Z to a-z, leaves all other
characters unchanged (agrees with `str::to_lowercase` on ASCII input). -/
def lowerChar (c : Char) : Char :=
  if 'A' ≤ c ∧ c ≤ 'Z' then Char.ofNat (c.toNat + 32) else c

/-- ASCII model of Rust `str::to_lowercase`. -/
def lowerString (s : String) : String :=
  String.mk (s.data.map lowerChar)

/-- Model of Rust `str::parse::<u64>()` (also used for `usize` on a 64-bit
target): an optional leading `+`, then one or more ASCII digits, and the
value must fit in 64 bits; anything else is a parse error (`none`). -/
def parseU64 (s : String) : Option Nat :=
  let cs :=
    match s.data with
    | '+' :: rest => rest
    | cs => cs
  if cs ≠ [] ∧ cs.all (fun c => '0' ≤ c ∧ c ≤ '9') then
    let n := cs.foldl (fun acc c => acc * 10 + (c.toNat - 48)) 0
    if n < 2 ^ 64 then some n else none
  else none

/-- The command variants of `src/command.rs` (`enum Command`). `set`'s
optional expiry `Duration` is a `Nat` of milliseconds. -/
inductive Command
  | ping
  | echo (value : String)
  | set (key value : String) (ex : Option Nat)
  | get (key : String)
  | info
  | replconf
  | psync
  | err
deriving DecidableEq, Repr

/-- `Command::parse` from `src/command.rs` lines 23-62: the whole token
array is lowercased (`input.iter().map(|s| s.to_lowercase())`) and the
lowercased tokens are matched; the bound arguments (echo rest, set/get
key and value, px argument) therefore come from the lowercased array.
For `SET k v PX ms`, `ms.parse::<u64>().map(Duration::from_millis).ok()`
turns a non-numeric `ms` into `ex = none` rather than an error. -/
def Command.parse (input : List String) : Command :=
  match input.map lowerString with
  | ["ping"] => .ping
  | "echo" :: rest => .echo (String.intercalate " " rest)
  | ["set", key, value, "px", ex] => .set key value (parseU64 ex)
  | ["set", key, value] => .set key value none
  | ["get", key] => .get key
  | "info" :: _ => .info
  | "replconf" :: _ => .replconf
  | "psync" :: _ => .psync
  | _ => .err

/-- `bulk_string` from `src/parse.rs` lines 44-51: `$-1\r\n` for absent,
otherwise `$<len>\r\n<payload>\r\n`. -/
def bulkString : Option String → String
  | none => "$-1\x0d\x0a"
  | some value => "$" ++ toString value.length ++ "\x0d\x0a" ++ value ++ "\x0d\x0a"

/-- `pairs` from `src/parse.rs` lines 35-42: `*<len>\r\n` then each pair as
a bulk string `key:value`. -/
def pairsResp (ps : List (String × String)) : String :=
  ps.foldl (fun result kv => result ++ bulkString (some (kv.1 ++ ":" ++ kv.2)))
    ("*" ++ toString ps.length ++ "\x0d\x0a")

/-- Modelled from the spec: the `array` emission helper (`crate::parse::array`)
is called by `src/master.rs`, `src/main.rs` and `src/replica.rs` but its
definition is not among the source files under `src/`; per spec section 4.1 the
array emitter produces `*<N>\r\n` followed by the N elements as bulk strings. -/
def respArray (items : List String) : String :=
  items.foldl (fun acc s => acc ++ bulkString (some s))
    ("*" ++ toString items.length ++ "\x0d\x0a")

/-- Split a character list at every `\n` (the separators are dropped). -/
def splitNl : List Char → List (List Char)
  | [] => [[]]
  | c :: rest =>
    if c = '\x0a' then [] :: splitNl rest
    else
      match splitNl rest with
      | [] => [[c]]
      | l :: ls => (c :: l) :: ls

/-- Model of Rust's `str::lines` dropping of one trailing `\r`:
`"\r\n"` line endings are recognized alongside `"\n"`. -/
def stripCRl (l : List Char) : List Char :=
  if l.getLast? = some '\x0d' then l.dropLast else l

/-- Model of Rust `str::lines()`: split at `\n`, recognizing `\r\n`;
the final line ending is optional and produces no empty last line. -/
def linesOf (s : String) : List String :=
  let parts := splitNl s.data
  let parts := if parts.getLast? = some [] then parts.dropLast else parts
  parts.map (fun l => String.mk (stripCRl l))

/-- The inner `for i in 0..length` loop of `tokenize` in `src/parse.rs`
lines 14-29: each iteration consumes the `$<len>` line and the value line,
pushing the value; running out of lines mid-command breaks, keeping the
values pushed so far. Returns the command tokens and the remaining lines. -/
def takeCmd : Nat → List String → List String × List String
  | 0, ls => ([], ls)
  | _ + 1, [] => ([], [])
  | _ + 1, [_] => ([], [])
  | n + 1, _ :: v :: ls => (v :: (takeCmd n ls).1, (takeCmd n ls).2)

theorem takeCmd_snd_length (n : Nat) (ls : List String) :
    (takeCmd n ls).2.length ≤ ls.length := by
  induction n generalizing ls with
  | zero => simp [takeCmd]
  | succ n ih =>
    match ls with
    | [] => simp [takeCmd]
    | [a] => simp [takeCmd]
    | a :: v :: ls =>
      have h := ih ls
      simp only [takeCmd, List.length_cons]
      omega

/-- The outer `while let Some(value) = lines.next()` loop of `tokenize`
(`src/parse.rs` lines 4-31): stop on a missing, empty or non-`*` line or a
non-numeric array length; otherwise read `length` elements and continue.
The `fuel` argument only makes the recursion structural: every iteration
consumes at least one line, so `fuel = ls.length` never runs out. -/
def tokenizeLines : Nat → List String → List (List String)
  | 0, _ => []
  | fuel + 1, ls =>
    match ls with
    | [] => []
    | value :: rest =>
      if value = "" ∨ value.data.head? ≠ some '*' then []
      else
        match parseU64 (String.mk (value.data.drop 1)) with
        | none => []
        | some length =>
          (takeCmd length rest).1 :: tokenizeLines fuel (takeCmd length rest).2

/-- `tokenize` from `src/parse.rs` lines 1-33: split the input into lines
and run the header/element loop. -/
def tokenize (input : String) : List (List String) :=
  tokenizeLines (linesOf input).length (linesOf input)

/-- `parse_command` from `src/command.rs` lines 101-105:
`tokenize(data).first().map(|v| Command::parse(v)).unwrap()`.
The trailing `.unwrap()` panics when `tokenize` produced no token array;
the panic is modelled by the `none` result. -/
def parse_command (data : String) : Option Command :=
  (tokenize data).head?.map Command.parse

/-- `enum Entry` from `src/db.rs`: a plain value, or a value with an
expiry `Instant` (milliseconds). -/
inductive Entry
  | simple (value : String)
  | expire (value : String) (deadline : Nat)
deriving DecidableEq, Repr

/-- The map guarded by the store mutex (`HashMap<String, Entry>`). -/
def Store := String → Option Entry

/-- `DB::get` from `src/db.rs` lines 17-30, written as a state transformer
to record its effect on the map: the source takes `&self` and only calls
`guard.get`, so every branch returns the map unchanged. An `Expire` entry
is absent exactly when `Instant::now() > ex`, i.e. `ex < now`. -/
def DB.getS (s : Store) (key : String) (now : Nat) : Option String × Store :=
  match s key with
  | none => (none, s)
  | some (.simple value) => (some value, s)
  | some (.expire value ex) => if ex < now then (none, s) else (some value, s)

/-- The value read by `DB::get`. -/
def DB.get (s : Store) (key : String) (now : Nat) : Option String :=
  (DB.getS s key now).1

/-- `DB::set` from `src/db.rs` lines 32-38: build the entry (with
`expires_at = now + duration` when a ttl is given) and unconditionally
`insert` it. -/
def DB.set (s : Store) (key value : String) (ex : Option Nat) (now : Nat) : Store :=
  let entry :=
    match ex with
    | none => Entry.simple value
    | some d => Entry.expire value (now + d)
  fun k => if k = key then some entry else s k

/-- A registered replica peer of `src/master.rs`: its address and the
contents of its unbounded send channel, oldest first. -/
structure Peer where
  addr : String
  queue : List String
deriving DecidableEq, Repr

/-- `Replicas::broadcast` from `src/master.rs` lines 49-54: enqueue the
message into every registered peer's channel. -/
def Replicas.broadcast (msg : String) (rs : List Peer) : List Peer :=
  rs.map (fun p => { p with queue := p.queue ++ [msg] })

/-- `Replicas::add` from `src/master.rs` lines 60-67 (`HashMap::insert`
keyed by address); the peer's channel receives broadcasts only once
registered, so it is empty at registration time. -/
def Replicas.addR (rs : List Peer) (addr : String) : List Peer :=
  rs.filter (fun p => p.addr ≠ addr) ++ [{ addr := addr, queue := [] }]

/-- `Replicas::remove` from `src/master.rs` lines 69-72. -/
def Replicas.removeR (rs : List Peer) (addr : String) : List Peer :=
  rs.filter (fun p => p.addr ≠ addr)

/-- `Replicas::len` from `src/master.rs` lines 56-58. -/
def Replicas.lenR (rs : List Peer) : Nat := rs.length

/-- The `Command::Wait` arm of `MasterConnection::handle_client_command`
(`src/master.rs` lines 204-209): the source binds `(_reps, _timeout)`
without using them and immediately writes `:{replicas.len()}\r\n`. -/
def masterWaitResponse (replicas : List Peer) (_reps _timeout : Nat) :
    String :=
  ":" ++ toString (Replicas.lenR replicas) ++ "\x0d\x0a"

/-- The byte sequence broadcast for a SET write: `array(&vec!["set", key,
value])` from the Set arm of `handle_client_command` (`src/master.rs`
lines 167-174). -/
def setBroadcastMsg (key value : String) : String :=
  respArray ["set", key, value]

/-- The Set arm of `handle_client_command` (`src/master.rs` lines
167-174): mutate the store, then broadcast the re-encoded SET to the
registered replicas (the `+OK` reply is covered by `clientResponse`). -/
def handleSet (db : Store) (rs : List Peer) (key value : String)
    (ex : Option Nat) (now : Nat) : Store × List Peer :=
  (DB.set db key value ex now, Replicas.broadcast (setBroadcastMsg key value) rs)

/-- `Server::info()` for a master (`src/main.rs` lines 56-68) with the
constant `replid` and `offset` of lines 49-54. -/
def serverInfoMaster : List (String × String) :=
  [("role", "master"),
   ("master_replid", "8371b4fb1155b71f4a04d3e1bc3e18c4a990aeeb"),
   ("master_repl_offset", "0")]

/-- The `+FULLRESYNC` line written by the Psync arm (`src/master.rs`
lines 183-189), with the constant replication id and offset. -/
def fullresyncLine : String :=
  "+FULLRESYNC 8371b4fb1155b71f4a04d3e1bc3e18c4a990aeeb 0\x0d\x0a"

/-- The response bytes written by `MasterConnection::handle_client_command`
(`src/master.rs` lines 151-216) for each command (for Psync, the line that
precedes the snapshot blob). -/
def clientResponse (c : Command) (db : Store) (now : Nat) : String :=
  match c with
  | .ping => "+PONG\x0d\x0a"
  | .echo value => bulkString (some value)
  | .get key => bulkString (DB.get db key now)
  | .set _ _ _ => "+OK\x0d\x0a"
  | .info => pairsResp serverInfoMaster
  | .replconf => "+OK\x0d\x0a"
  | .psync => fullresyncLine
  | .err => "-ERR\x0d\x0a"

/-- The two internal states of a master-side connection handler
(`enum PeerType`, `src/master.rs` lines 75-81). -/
inductive ConnState
  | client
  | replicaOut
deriving DecidableEq, Repr

/-- One scheduler outcome for an iteration of the `client_handler` loop
(`src/master.rs` lines 92-148): in Client state either the frame read
fails (`Ok(None) | Err(_)`) or a command arrives whose dispatch writes
succeed or fail; in ReplicaOutbound state either a channel message is
written out or the ack timer ticks (with `inbound = some isAck` when the
subsequent frame read yields a frame, `isAck` recording whether it parsed
as a REPLCONF ACK — the discrimination at `src/master.rs` lines 133-140).
Events that do not apply to the current state are vacuous. -/
inductive ConnEvent
  | eofOrErr
  | cmd (c : Command) (writesOk : Bool)
  | fromChannel (writeOk : Bool)
  | tick (writeOk : Bool) (inbound : Option Bool)
deriving DecidableEq, Repr

/-- Result of one `MasterConnection::handle` call: continue with a new
state (`Some(self)`), end the loop (`None`, after which `client_handler`
removes the peer from the registry), or panic (the `.unwrap()` at
`src/master.rs` line 105, which skips the removal). -/
inductive StepOut
  | alive (st : ConnState) (rs : List Peer) (db : Store)
  | exitLoop (rs : List Peer) (db : Store)
  | panicked (rs : List Peer) (db : Store)

/-- Whether an address is registered in the replica registry. -/
def registeredB (rs : List Peer) (a : String) : Bool :=
  rs.any (fun p => p.addr == a)

/-- One iteration of `MasterConnection::handle` (`src/master.rs` lines
92-148) as seen by the registry and store. In Client state a successful
Psync sends FULLRESYNC and the blob, registers the peer, and moves to
ReplicaOutbound (`src/master.rs` lines 183-203); a Set mutates the store
and broadcasts; a failed dispatch write makes `handle` return `Err`,
which line 105 `.unwrap()`s into a panic (for Set the store mutation at
line 168 precedes the failed write; for Psync all writes precede the
registration at line 197, so the registry is unchanged). In
ReplicaOutbound state write failures and non-ACK inbound frames end the
session cleanly (`return None`). -/
def connStep (addr : String) (now : Nat) (db : Store) (rs : List Peer) :
    ConnState → ConnEvent → StepOut
  | .client, .eofOrErr => .exitLoop rs db
  | .client, .cmd c writesOk =>
    if writesOk then
      match c with
      | .psync => .alive .replicaOut (Replicas.addR rs addr) db
      | .set k v ex =>
        .alive .client (Replicas.broadcast (setBroadcastMsg k v) rs)
          (DB.set db k v ex now)
      | _ => .alive .client rs db
    else
      match c with
      | .set k v ex => .panicked rs (DB.set db k v ex now)
      | _ => .panicked rs db
  | .client, .fromChannel _ => .alive .client rs db
  | .client, .tick _ _ => .alive .client rs db
  | .replicaOut, .fromChannel writeOk =>
    if writeOk then .alive .replicaOut rs db else .exitLoop rs db
  | .replicaOut, .tick writeOk inbound =>
    if writeOk then
      match inbound with
      | none => .alive .replicaOut rs db
      | some true => .alive .replicaOut rs db
      | some false => .exitLoop rs db
    else .exitLoop rs db
  | .replicaOut, .eofOrErr => .alive .replicaOut rs db
  | .replicaOut, .cmd _ _ => .alive .replicaOut rs db

/-- Result of a whole `client_handler` run: still looping with events
exhausted, exited the loop (the registry removal at `src/master.rs` line
248 has run), or died by panic (the removal was skipped). -/
inductive RunOut
  | running (st : ConnState) (rs : List Peer) (db : Store)
  | exited (rs : List Peer) (db : Store)
  | panicked (rs : List Peer) (db : Store)

/-- The `while let Some(x) = master` loop of `client_handler`
(`src/master.rs` lines 243-248) over a list of scheduler outcomes,
followed by `replicas.remove(&peer.addr)` when the loop ends cleanly. -/
def connRun (addr : String) (now : Nat) :
    Store → List Peer → ConnState → List ConnEvent → RunOut
  | db, rs, st, [] => .running st rs db
  | db, rs, st, e :: es =>
    match connStep addr now db rs st e with
    | .alive st2 rs2 db2 => connRun addr now db2 rs2 st2 es
    | .exitLoop rs2 db2 => .exited (Replicas.removeR rs2 addr) db2
    | .panicked rs2 db2 => .panicked rs2 db2

/-- The apply loop of `sync_with_master` (`src/replica.rs` lines 83-90):
parse the frame's tokens; a `Set` mutates the store; every other command
has no effect, and no reply is ever written (the loop body contains no
write). The `Option String` component is the reply sent for the frame. -/
def replicaApply (db : Store) (tokens : List String) (now : Nat) :
    Store × Option String :=
  match Command.parse tokens with
  | .set key value ex => (DB.set db key value ex now, none)
  | _ => (db, none)

end Redis

-- sanity examples for the parser and emitters
example : Redis.Command.parse ["PING"] = .ping := by decide
example : Redis.Command.parse ["ping", "x"] = .err := by decide
example : Redis.Command.parse ["ECHO", "hello", "world"] = .echo "hello world" := by
  decide
example : Redis.Command.parse ["set", "foo", "bar"] = .set "foo" "bar" none := by
  decide
example : Redis.Command.parse ["set", "foo", "bar", "px", "100"] =
    .set "foo" "bar" (some 100) := by decide
example : Redis.bulkString (some "bar") = "$3\x0d\x0abar\x0d\x0a" := by decide
example : Redis.bulkString none = "$-1\x0d\x0a" := by decide
example : Redis.respArray ["set", "foo", "bar"] =
    "*3\x0d\x0a$3\x0d\x0aset\x0d\x0a$3\x0d\x0afoo\x0d\x0a$3\x0d\x0abar\x0d\x0a" := by
  decide

-- the two unit tests of src/parse.rs, replayed against the embedding
example : Redis.tokenize "*1\x0d\x0a$4\x0d\x0aPING\x0d\x0a" = [["PING"]] := by
  decide
example :
    Redis.tokenize
      "*3\x0d\x0a$3\x0d\x0aset\x0d\x0a$3\x0d\x0afoo\x0d\x0a$3\x0d\x0abar\x0d\x0a*2\x0d\x0a$3\x0d\x0aget\x0d\x0a$3\x0d\x0afoo\x0d\x0a"
      = [["set", "foo", "bar"], ["get", "foo"]] := by
  decide
example : Redis.tokenize "PING\x0d\x0a" = [] := by decide
example : Redis.parse_command "PING\x0d\x0a" = none := by decide

namespace Redis

/-- C1 counterexample: `Command::parse` lowercases the whole token array,
so the argument of `ECHO A` is carried as `a`, not byte-identical `A`,
and the response frames `a` rather than `A`. -/
theorem c1_counterexample :
    Command.parse ["ECHO", "A"] = .echo "a" ∧
    Command.parse ["ECHO", "A"] ≠ .echo "A" ∧
    clientResponse (Command.parse ["ECHO", "A"]) (fun _ => none) 0 =
      "$1\x0d\x0aa\x0d\x0a" := by
  refine ⟨by decide, by decide, by decide⟩

/-- C1 (amended): verbs are matched case-insensitively, but the arguments
carried by the parsed command are the lowercased request tokens (so they
are byte-identical only when already lowercase); `ECHO` returns the
lowercased tokens joined by single spaces, framed as a bulk string. -/
theorem c1_theorem (ev sv gv k v : String) (rest : List String)
    (he : lowerString ev = "echo") (hs : lowerString sv = "set")
    (hg : lowerString gv = "get") (db : Store) (now : Nat) :
    Command.parse (ev :: rest) =
      .echo (String.intercalate " " (rest.map lowerString)) ∧
    Command.parse [sv, k, v] = .set (lowerString k) (lowerString v) none ∧
    Command.parse [gv, k] = .get (lowerString k) ∧
    clientResponse (Command.parse (ev :: rest)) db now =
      bulkString (some (String.intercalate " " (rest.map lowerString))) := by
  have hech : Command.parse (ev :: rest) =
      .echo (String.intercalate " " (rest.map lowerString)) := by
    unfold Command.parse
    rw [List.map_cons, he]
    cases rest with
    | nil => rfl
    | cons a t => rfl
  refine ⟨hech, ?_, ?_, by rw [hech]; rfl⟩
  · unfold Command.parse
    rw [show List.map lowerString [sv, k, v] =
      ["set", lowerString k, lowerString v] by simp [hs]]
    rfl
  · unfold Command.parse
    rw [show List.map lowerString [gv, k] = ["get", lowerString k] by simp [hg]]
    rfl

/-- C1 witness: the amended theorem at `ECHO Hello World` / `SET K V` /
`GET K`. -/
theorem c1_witness :
    Command.parse ["ECHO", "Hello", "World"] = .echo "hello world" ∧
    Command.parse ["SET", "K", "V"] = .set "k" "v" none ∧
    Command.parse ["GET", "K"] = .get "k" ∧
    clientResponse (Command.parse ["ECHO", "Hello", "World"]) (fun _ => none) 0 =
      bulkString (some "hello world") := by
  have h := c1_theorem "ECHO" "SET" "GET" "K" "V" ["Hello", "World"]
    (by decide) (by decide) (by decide) (fun _ => none) 0
  refine ⟨?_, ?_, ?_, ?_⟩
  · have h1 := h.1
    rwa [show String.intercalate " " (List.map lowerString ["Hello", "World"]) =
      "hello world" by decide] at h1
  · have h2 := h.2.1
    rwa [show lowerString "K" = "k" from by decide,
      show lowerString "V" = "v" from by decide] at h2
  · have h3 := h.2.2.1
    rwa [show lowerString "K" = "k" from by decide] at h3
  · have h4 := h.2.2.2
    rwa [show String.intercalate " " (List.map lowerString ["Hello", "World"]) =
      "hello world" by decide] at h4

/-- C2: the spec claims parsing failures never panic, but `parse_command`
(`src/command.rs` line 103) ends in `.unwrap()`: any inbound data whose
first line is not a valid `*<N>` header makes `tokenize` return no token
array and the `unwrap` panic (modelled by the `none` result). The inline
request `PING\r\n` is such an input. -/
theorem c2_code_eval :
    tokenize "PING\x0d\x0a" = [] ∧
    parse_command "PING\x0d\x0a" = none ∧
    tokenize "*abc\x0d\x0a" = [] ∧
    parse_command "*abc\x0d\x0a" = none := by
  refine ⟨by decide, by decide, by decide, by decide⟩

/-- C3 counterexample: `SET k v PX abc` parses to `Set{k, v, ttl = none}`
(the `.ok()` on the failed `u64` parse drops the expiry), not to `Err`. -/
theorem c3_counterexample :
    Command.parse ["set", "k", "v", "px", "abc"] = .set "k" "v" none ∧
    Command.parse ["set", "k", "v", "px", "abc"] ≠ .err := by
  refine ⟨by decide, by decide⟩

/-- C3 (amended): `SET k v PX ms` with non-numeric `ms` parses to
`Set{k, v, ttl = none}` rather than `Err`; malformed argument counts for
SET and GET do map to `Err`. -/
theorem c3_theorem (sv gv pv k v w ex : String)
    (hs : lowerString sv = "set") (hg : lowerString gv = "get")
    (hp : lowerString pv = "px")
    (hex : parseU64 (lowerString ex) = none)
    (hw : lowerString w ≠ "px") :
    Command.parse [sv, k, v, pv, ex] =
      .set (lowerString k) (lowerString v) none ∧
    Command.parse [sv, k] = .err ∧
    Command.parse [sv, k, v, w] = .err ∧
    Command.parse [sv, k, v, w, ex] = .err ∧
    Command.parse [gv] = .err ∧
    Command.parse [gv, k, v] = .err := by
  refine ⟨?_, ?_, ?_, ?_, ?_, ?_⟩
  · unfold Command.parse
    rw [show List.map lowerString [sv, k, v, pv, ex] =
      ["set", lowerString k, lowerString v, "px", lowerString ex] by
        simp [hs, hp]]
    simp [hex]
  · unfold Command.parse
    rw [show List.map lowerString [sv, k] = ["set", lowerString k] by simp [hs]]
    rfl
  · unfold Command.parse
    rw [show List.map lowerString [sv, k, v, w] =
      ["set", lowerString k, lowerString v, lowerString w] by simp [hs]]
    split <;> first | rfl | simp_all
  · unfold Command.parse
    rw [show List.map lowerString [sv, k, v, w, ex] =
      ["set", lowerString k, lowerString v, lowerString w, lowerString ex] by
        simp [hs]]
    split <;> first | rfl | simp_all
  · unfold Command.parse
    rw [show List.map lowerString [gv] = ["get"] by simp [hg]]
    rfl
  · unfold Command.parse
    rw [show List.map lowerString [gv, k, v] =
      ["get", lowerString k, lowerString v] by simp [hg]]
    rfl

/-- C3 witness: the amended theorem at `SET k v PX 12a` and arity errors. -/
theorem c3_witness :
    Command.parse ["set", "k", "v", "px", "12a"] = .set "k" "v" none ∧
    Command.parse ["set", "k"] = .err ∧
    Command.parse ["set", "k", "v", "ex"] = .err ∧
    Command.parse ["set", "k", "v", "ex", "10"] = .err ∧
    Command.parse ["get"] = .err ∧
    Command.parse ["get", "k", "v"] = .err := by
  have h := c3_theorem "set" "get" "px" "k" "v" "ex" "12a"
    (by decide) (by decide) (by decide) (by decide) (by decide)
  simpa using h

/-- The value read by `DB::get`, as a function of the entry found under
the key: absent entries and entries expired strictly before `now` read as
`none`. -/
theorem DB.get_eq (s : Store) (key : String) (now : Nat) :
    DB.get s key now =
      match s key with
      | none => none
      | some (.simple value) => some value
      | some (.expire value ex) => if ex < now then none else some value := by
  unfold DB.get DB.getS
  rcases s key with _ | e
  · rfl
  · rcases e with v | ⟨v, ex⟩
    · rfl
    · by_cases h : ex < now
      · simp [h]
      · simp [h]

/-- C5: after `SET k v` (at time `t0`), `GET k` returns `v` as long as the
ttl (if any) has not elapsed (`now ≤ t0 + d`), and a SET to a different
key does not disturb that. -/
theorem c5_theorem (s : Store) (k v : String) (ex : Option Nat) (t0 now : Nat)
    (hlive : ∀ d, ex = some d → now ≤ t0 + d) :
    DB.get (DB.set s k v ex t0) k now = some v ∧
    ∀ k2 v2 ex2 t2, k2 ≠ k →
      DB.get (DB.set (DB.set s k v ex t0) k2 v2 ex2 t2) k now = some v := by
  have hbase : DB.get (DB.set s k v ex t0) k now = some v := by
    rw [DB.get_eq]
    cases ex with
    | none => simp [DB.set]
    | some d =>
      have hd := hlive d rfl
      simp only [DB.set, if_pos rfl]
      rw [if_neg (by omega)]
  refine ⟨hbase, ?_⟩
  intro k2 v2 ex2 t2 hne
  have hk : DB.set (DB.set s k v ex t0) k2 v2 ex2 t2 k = DB.set s k v ex t0 k := by
    simp [DB.set, if_neg (Ne.symm hne)]
  rw [DB.get_eq, hk, ← DB.get_eq]
  exact hbase

/-- C5 witness: `SET k v PX 5` at time 0, `GET k` at time 5 still sees `v`,
also after an unrelated `SET k2 w`. -/
theorem c5_witness :
    DB.get (DB.set (fun _ => none) "k" "v" (some 5) 0) "k" 5 = some "v" ∧
    DB.get (DB.set (DB.set (fun _ => none) "k" "v" (some 5) 0) "k2" "w" none 7)
      "k" 5 = some "v" := by
  have h := c5_theorem (fun _ => none) "k" "v" (some 5) 0 5
    (by intro d hd; injection hd with hd; omega)
  exact ⟨h.1, h.2 "k2" "w" none 7 (by decide)⟩

/-- C6 counterexample: with `SET k v PX 5` at time 0, a `GET k` at wall
time exactly `set_time + 5` still returns the value (the code reads an
entry as absent only when `expires_at` is *strictly* less than now), so
the claimed "absent at wall time ≥ set_time + t" fails at equality, and
the response is not the `$-1\r\n` sentinel. -/
theorem c6_counterexample :
    DB.get (DB.set (fun _ => none) "kk" "vv" (some 5) 0) "kk" 5 = some "vv" ∧
    clientResponse (.get "kk") (DB.set (fun _ => none) "kk" "vv" (some 5) 0) 5 =
      "$2\x0d\x0avv\x0d\x0a" ∧
    "$2\x0d\x0avv\x0d\x0a" ≠ "$-1\x0d\x0a" := by
  refine ⟨by decide, by decide, by decide⟩

/-- C6 (amended): `GET k` at wall time strictly after `set_time + t`
returns the absent sentinel `$-1\r\n` (in particular, after `SET k v PX 0`
any strictly later `GET k` is absent): an entry is treated as absent iff
its `expires_at` is strictly less than now. -/
theorem c6_theorem (s : Store) (k v : String) (d t0 now : Nat)
    (h : t0 + d < now) :
    DB.get (DB.set s k v (some d) t0) k now = none ∧
    clientResponse (.get k) (DB.set s k v (some d) t0) now = "$-1\x0d\x0a" := by
  have hget : DB.get (DB.set s k v (some d) t0) k now = none := by
    simp only [DB.get, DB.getS, DB.set, if_pos rfl]
    rw [if_pos (by omega)]
  exact ⟨hget, by simp [clientResponse, hget, bulkString]⟩

/-- C6 witness: `SET k v PX 0` at time 0, `GET k` at time 1 is absent. -/
theorem c6_witness :
    DB.get (DB.set (fun _ => none) "k" "v" (some 0) 0) "k" 1 = none ∧
    clientResponse (.get "k") (DB.set (fun _ => none) "k" "v" (some 0) 0) 1 =
      "$-1\x0d\x0a" :=
  c6_theorem (fun _ => none) "k" "v" 0 0 1 (by omega)

/-- C7 counterexample: the byte sequence actually broadcast for a SET is
`*3\r\n$3\r\nset\r\n…` with a lowercase `set` verb (the master re-encodes
`array(&vec!["set", key, value])`), so it is not byte-for-byte the claimed
`*3 $3 SET $|k| k $|v| v`. -/
theorem c7_counterexample :
    setBroadcastMsg "k" "v" =
      "*3\x0d\x0a$3\x0d\x0aset\x0d\x0a$1\x0d\x0ak\x0d\x0a$1\x0d\x0av\x0d\x0a" ∧
    setBroadcastMsg "k" "v" ≠
      "*3\x0d\x0a$3\x0d\x0aSET\x0d\x0a$1\x0d\x0ak\x0d\x0a$1\x0d\x0av\x0d\x0a" := by
  refine ⟨by decide, by decide⟩

/-- C7 (amended): for every SET write dispatched on the master, the byte
sequence `*3\r\n$3\r\nset\r\n$|k|\r\nk\r\n$|v|\r\nv\r\n` (lowercase verb,
the parsed key and value) is enqueued into every currently registered
replica's send channel, and the enqueued byte sequence is identical for
all registered replicas. -/
theorem c7_theorem (db : Store) (rs : List Peer) (k v : String)
    (ex : Option Nat) (now : Nat) :
    (handleSet db rs k v ex now).2 =
      rs.map (fun p => { p with queue := p.queue ++ [setBroadcastMsg k v] }) ∧
    setBroadcastMsg k v =
      "*3\x0d\x0a$3\x0d\x0aset\x0d\x0a" ++ bulkString (some k) ++
        bulkString (some v) ∧
    ∀ p ∈ (handleSet db rs k v ex now).2, ∃ q,
      p.queue = q ++ [setBroadcastMsg k v] := by
  refine ⟨rfl, ?_, ?_⟩
  · unfold setBroadcastMsg respArray
    simp only [List.foldl, List.length_cons, List.length_nil]
    congr 2
  intro p hp
  simp only [handleSet, Replicas.broadcast, List.mem_map] at hp
  obtain ⟨p0, _, rfl⟩ := hp
  exact ⟨p0.queue, rfl⟩

/-- C4: the spec claims WAIT counts replicas whose `acked_offset` has
reached the master offset, waiting up to the timeout; the code's Wait arm
(`src/master.rs` 204-209) ignores both arguments and immediately answers
with the total number of registered replicas (no acked offsets are
tracked anywhere in the source). -/
theorem c4_code_eval :
    masterWaitResponse [{ addr := "r", queue := [] }] 1 500 = ":1\x0d\x0a" ∧
    masterWaitResponse [{ addr := "r", queue := [] }] 0 0 = ":1\x0d\x0a" ∧
    ∀ rs n t n2 t2, masterWaitResponse rs n t = masterWaitResponse rs n2 t2 := by
  exact ⟨by decide, by decide, fun rs n t n2 t2 => rfl⟩

/-- C8: the spec claims every REPLCONF GETACK frame is answered with a
REPLCONF ACK array; the replica apply loop (`src/replica.rs` 83-90) only
applies `Set` commands and never writes a reply: a GETACK frame parses to
the argumentless `Replconf` variant and produces no output and no store
change. -/
theorem c8_code_eval (s : Store) (now : Nat) :
    Command.parse ["REPLCONF", "GETACK", "*"] = .replconf ∧
    (replicaApply s ["REPLCONF", "GETACK", "*"] now).2 = none ∧
    (replicaApply s ["REPLCONF", "GETACK", "*"] now).1 = s := by
  refine ⟨by decide, ?_, ?_⟩ <;>
    simp [replicaApply, show Command.parse ["REPLCONF", "GETACK", "*"] =
      .replconf from by decide]

/-- Broadcasting touches only the peers' queues, never the membership. -/
theorem registeredB_broadcast (m : String) (rs : List Peer) (a : String) :
    registeredB (Replicas.broadcast m rs) a = registeredB rs a := by
  simp only [registeredB, Replicas.broadcast, List.any_map]
  rfl

/-- After `Replicas::add`, the added address is registered. -/
theorem registeredB_addR (rs : List Peer) (a : String) :
    registeredB (Replicas.addR rs a) a = true := by
  simp [registeredB, Replicas.addR]

/-- After `Replicas::remove`, the removed address is not registered. -/
theorem registeredB_removeR (rs : List Peer) (a : String) :
    registeredB (Replicas.removeR rs a) a = false := by
  rw [Bool.eq_false_iff]
  simp only [registeredB, Replicas.removeR, ne_eq, List.any_eq_true,
    List.mem_filter, beq_iff_eq, decide_not, Bool.not_eq_eq_eq_not,
    Bool.not_true, decide_eq_false_iff_not]
  rintro ⟨p, ⟨_, hne⟩, rfl⟩
  exact hne rfl

/-- A step that keeps the handler alive preserves the registry invariant
(registered iff in ReplicaOutbound state), and the new state is
ReplicaOutbound exactly when the old one was or the step was a
successfully-dispatched PSYNC. -/
theorem connStep_alive (addr : String) (now : Nat) (db : Store)
    (rs : List Peer) (st : ConnState) (e : ConnEvent) (st2 : ConnState)
    (rs2 : List Peer) (db2 : Store)
    (h : connStep addr now db rs st e = .alive st2 rs2 db2)
    (hinv : st = .replicaOut ↔ registeredB rs addr = true) :
    (st2 = .replicaOut ↔ registeredB rs2 addr = true) ∧
    (st2 = .replicaOut ↔ (st = .replicaOut ∨ e = .cmd .psync true)) := by
  cases st with
  | client =>
    have hreg : registeredB rs addr = false := by
      rw [Bool.eq_false_iff]
      intro hr
      exact absurd (hinv.mpr hr) (by simp)
    cases e with
    | eofOrErr => simp [connStep] at h
    | cmd c ok =>
      cases ok with
      | false =>
        exfalso
        simp only [connStep] at h
        rw [if_neg (by simp)] at h
        cases c <;> simp at h
      | true =>
        simp only [connStep] at h
        rw [if_pos trivial] at h
        cases c <;>
          (injection h with h1 h2 h3
           subst h1
           subst h2
           refine ⟨?_, ?_⟩ <;>
             simp [hreg, registeredB_addR, registeredB_broadcast])
    | fromChannel ok =>
      simp only [connStep] at h
      injection h with h1 h2 h3
      subst h1
      subst h2
      refine ⟨?_, ?_⟩ <;> simp [hreg]
    | tick ok inb =>
      simp only [connStep] at h
      injection h with h1 h2 h3
      subst h1
      subst h2
      refine ⟨?_, ?_⟩ <;> simp [hreg]
  | replicaOut =>
    have hreg : registeredB rs addr = true := hinv.mp rfl
    cases e with
    | eofOrErr =>
      simp only [connStep] at h
      injection h with h1 h2 h3
      subst h1
      subst h2
      refine ⟨?_, ?_⟩ <;> simp [hreg]
    | cmd c ok =>
      simp only [connStep] at h
      injection h with h1 h2 h3
      subst h1
      subst h2
      refine ⟨?_, ?_⟩ <;> simp [hreg]
    | fromChannel ok =>
      cases ok with
      | false =>
        simp only [connStep] at h
        rw [if_neg (by simp)] at h
        simp at h
      | true =>
        simp only [connStep] at h
        rw [if_pos trivial] at h
        injection h with h1 h2 h3
        subst h1
        subst h2
        refine ⟨?_, ?_⟩ <;> simp [hreg]
    | tick ok inb =>
      cases ok with
      | false =>
        simp only [connStep] at h
        rw [if_neg (by simp)] at h
        simp at h
      | true =>
        simp only [connStep] at h
        rw [if_pos trivial] at h
        rcases inb with _ | (_ | _)
        · injection h with h1 h2 h3
          subst h1
          subst h2
          refine ⟨?_, ?_⟩ <;> simp [hreg]
        · simp at h
        · injection h with h1 h2 h3
          subst h1
          subst h2
          refine ⟨?_, ?_⟩ <;> simp [hreg]

/-- A step that ends the loop cleanly leaves the registry unchanged (the
removal happens in `client_handler` after the loop). -/
theorem connStep_exitLoop (addr : String) (now : Nat) (db : Store)
    (rs : List Peer) (st : ConnState) (e : ConnEvent)
    (rs2 : List Peer) (db2 : Store)
    (h : connStep addr now db rs st e = .exitLoop rs2 db2) :
    rs2 = rs := by
  cases st with
  | client =>
    cases e with
    | eofOrErr =>
      simp only [connStep] at h
      injection h with h1 h2
      exact h1.symm
    | cmd c ok =>
      cases ok with
      | false =>
        simp only [connStep] at h
        rw [if_neg (by simp)] at h
        cases c <;> simp at h
      | true =>
        simp only [connStep] at h
        rw [if_pos trivial] at h
        cases c <;> simp at h
    | fromChannel ok => simp [connStep] at h
    | tick ok inb => simp [connStep] at h
  | replicaOut =>
    cases e with
    | eofOrErr => simp [connStep] at h
    | cmd c ok => simp [connStep] at h
    | fromChannel ok =>
      cases ok with
      | false =>
        simp only [connStep] at h
        rw [if_neg (by simp)] at h
        injection h with h1 h2
        exact h1.symm
      | true =>
        simp only [connStep] at h
        rw [if_pos trivial] at h
        simp at h
    | tick ok inb =>
      cases ok with
      | false =>
        simp only [connStep] at h
        rw [if_neg (by simp)] at h
        injection h with h1 h2
        exact h1.symm
      | true =>
        simp only [connStep] at h
        rw [if_pos trivial] at h
        rcases inb with _ | (_ | _)
        · simp at h
        · injection h with h1 h2
          exact h1.symm
        · simp at h

/-- A panic can only happen while still in Client state (the `.unwrap()`
at `src/master.rs` line 105 is only reached there), and it leaves the
registry unchanged. -/
theorem connStep_panicked (addr : String) (now : Nat) (db : Store)
    (rs : List Peer) (st : ConnState) (e : ConnEvent)
    (rs2 : List Peer) (db2 : Store)
    (h : connStep addr now db rs st e = .panicked rs2 db2) :
    rs2 = rs ∧ st = .client := by
  cases st with
  | client =>
    refine ⟨?_, rfl⟩
    cases e with
    | eofOrErr => simp [connStep] at h
    | cmd c ok =>
      cases ok with
      | false =>
        simp only [connStep] at h
        rw [if_neg (by simp)] at h
        cases c <;>
          (injection h with h1 h2
           exact h1.symm)
      | true =>
        simp only [connStep] at h
        rw [if_pos trivial] at h
        cases c <;> simp at h
    | fromChannel ok => simp [connStep] at h
    | tick ok inb => simp [connStep] at h
  | replicaOut =>
    exfalso
    cases e with
    | eofOrErr => simp [connStep] at h
    | cmd c ok => simp [connStep] at h
    | fromChannel ok =>
      cases ok with
      | false =>
        simp only [connStep] at h
        rw [if_neg (by simp)] at h
        simp at h
      | true =>
        simp only [connStep] at h
        rw [if_pos trivial] at h
        simp at h
    | tick ok inb =>
      cases ok with
      | false =>
        simp only [connStep] at h
        rw [if_neg (by simp)] at h
        simp at h
      | true =>
        simp only [connStep] at h
        rw [if_pos trivial] at h
        rcases inb with _ | (_ | _) <;> simp at h

/-- Registry invariant of a `client_handler` run, by induction over the
scheduler outcomes: while alive, the peer is registered iff it is in
ReplicaOutbound state, which happens iff a PSYNC was dispatched
successfully; a clean exit removes the entry; a panic can only strike
before registration. -/
theorem connRun_registry (addr : String) (now : Nat) (events : List ConnEvent) :
    ∀ (db : Store) (rs : List Peer) (st : ConnState),
      (st = .replicaOut ↔ registeredB rs addr = true) →
      (∀ st2 rs2 db2,
        connRun addr now db rs st events = .running st2 rs2 db2 →
          (st2 = .replicaOut ↔ registeredB rs2 addr = true) ∧
          (st2 = .replicaOut ↔
            (st = .replicaOut ∨ ConnEvent.cmd .psync true ∈ events))) ∧
      (∀ rs2 db2, connRun addr now db rs st events = .exited rs2 db2 →
        registeredB rs2 addr = false) ∧
      (∀ rs2 db2, connRun addr now db rs st events = .panicked rs2 db2 →
        registeredB rs2 addr = false) := by
  induction events with
  | nil =>
    intro db rs st hinv
    refine ⟨?_, ?_, ?_⟩
    · intro st2 rs2 db2 h
      simp only [connRun] at h
      cases h
      exact ⟨hinv, by simp⟩
    · intro rs2 db2 h
      simp [connRun] at h
    · intro rs2 db2 h
      simp [connRun] at h
  | cons e es ih =>
    intro db rs st hinv
    refine ⟨?_, ?_, ?_⟩
    · intro st2 rs2 db2 h
      simp only [connRun] at h
      rcases hstep : connStep addr now db rs st e with
        ⟨stm, rsm, dbm⟩ | ⟨rsm, dbm⟩ | ⟨rsm, dbm⟩ <;> rw [hstep] at h
      · obtain ⟨hmid, htrans⟩ := connStep_alive addr now db rs st e _ _ _ hstep hinv
        obtain ⟨h1, h2⟩ := ((ih dbm rsm stm hmid).1 st2 rs2 db2 h)
        refine ⟨h1, ?_⟩
        rw [h2, htrans]
        simp only [List.mem_cons]
        tauto
      · simp at h
      · simp at h
    · intro rs2 db2 h
      simp only [connRun] at h
      rcases hstep : connStep addr now db rs st e with
        ⟨stm, rsm, dbm⟩ | ⟨rsm, dbm⟩ | ⟨rsm, dbm⟩ <;> rw [hstep] at h
      · obtain ⟨hmid, _⟩ := connStep_alive addr now db rs st e _ _ _ hstep hinv
        exact (ih dbm rsm stm hmid).2.1 rs2 db2 h
      · cases h
        exact registeredB_removeR rsm addr
      · simp at h
    · intro rs2 db2 h
      simp only [connRun] at h
      rcases hstep : connStep addr now db rs st e with
        ⟨stm, rsm, dbm⟩ | ⟨rsm, dbm⟩ | ⟨rsm, dbm⟩ <;> rw [hstep] at h
      · obtain ⟨hmid, _⟩ := connStep_alive addr now db rs st e _ _ _ hstep hinv
        exact (ih dbm rsm stm hmid).2.2 rs2 db2 h
      · simp at h
      · cases h
        obtain ⟨hrs, hcl⟩ := connStep_panicked addr now db rs st e _ _ hstep
        subst hrs
        rw [Bool.eq_false_iff]
        intro hreg
        rw [hcl] at hinv
        exact absurd (hinv.mpr hreg) (by simp)

/-- C9: a fresh connection starts unregistered in Client state; while the
handler lives, its address is in the replica registry iff a PSYNC was
dispatched successfully (FULLRESYNC header and snapshot blob written), on
a clean disconnect the entry is removed as part of the handler's exit,
and a panic can only strike before registration, so the address is never
left registered. -/
theorem c9_theorem (addr : String) (now : Nat) (db : Store) (rs0 : List Peer)
    (events : List ConnEvent) (h0 : registeredB rs0 addr = false) :
    (∀ st rs db2, connRun addr now db rs0 .client events = .running st rs db2 →
      (registeredB rs addr = true ↔ ConnEvent.cmd .psync true ∈ events)) ∧
    (∀ rs db2, connRun addr now db rs0 .client events = .exited rs db2 →
      registeredB rs addr = false) ∧
    (∀ rs db2, connRun addr now db rs0 .client events = .panicked rs db2 →
      registeredB rs addr = false) := by
  have hinv : ConnState.client = ConnState.replicaOut ↔
      registeredB rs0 addr = true := by
    simp [h0]
  obtain ⟨hrun, hexit, hpanic⟩ := connRun_registry addr now events db rs0 .client hinv
  refine ⟨?_, hexit, hpanic⟩
  intro st rs db2 h
  obtain ⟨h1, h2⟩ := hrun st rs db2 h
  rw [← h1, h2]
  simp

/-- C9 witness: a connection that completes PSYNC and then serves one
channel message is registered while alive; one that then hits a write
error exits with its entry removed; an ordinary client that panics on a
write error was never registered. -/
theorem c9_witness :
    (registeredB [{ addr := "r", queue := [] }] "r" = true ↔
      ConnEvent.cmd .psync true ∈
        [ConnEvent.cmd .psync true, ConnEvent.fromChannel true]) ∧
    (∀ rs db2,
      connRun "r" 0 (fun _ => none) [] .client
        [ConnEvent.cmd .psync true, ConnEvent.fromChannel false] =
          .exited rs db2 →
      registeredB rs "r" = false) ∧
    (∀ rs db2,
      connRun "r" 0 (fun _ => none) [] .client
        [ConnEvent.cmd .ping false] = .panicked rs db2 →
      registeredB rs "r" = false) := by
  refine ⟨?_, ?_, ?_⟩
  · have h := c9_theorem "r" 0 (fun _ => none) []
      [ConnEvent.cmd .psync true, ConnEvent.fromChannel true] (by decide)
    exact h.1 .replicaOut [{ addr := "r", queue := [] }] (fun _ => none) rfl
  · have h := c9_theorem "r" 0 (fun _ => none) []
      [ConnEvent.cmd .psync true, ConnEvent.fromChannel false] (by decide)
    exact h.2.1
  · have h := c9_theorem "r" 0 (fun _ => none) []
      [ConnEvent.cmd .ping false] (by decide)
    exact h.2.2

/-- C10: `DB::get` is read-only: the store after a get is the very store
that was read, for every key and time — including keys whose expiry
deadline has passed, so reads never purge expired entries. -/
theorem c10_theorem (s : Store) (key : String) (now : Nat) :
    (DB.getS s key now).2 = s := by
  unfold DB.getS
  rcases s key with _ | e
  · rfl
  · rcases e with v | ⟨v, ex⟩
    · rfl
    · by_cases h : ex < now
      · simp [h]
      · simp [h]

end Redis
